import Mathlib

/-!
Verification of the room/game orchestration engine of the multi-game
repository (backend/socket/socketHandler.js) against its natural-language
specification.  The JavaScript handlers are shallowly embedded as pure
Lean functions over an explicit room state; Mongo ObjectIds are abstracted
as natural numbers, wall-clock instants as natural-number milliseconds.
-/

namespace MultiGame

/-- A user identity (a Mongo ObjectId in the source). -/
abbrev PlayerId := Nat

/-- A room-scoped player entry (`players` items of the Room schema). -/
structure Player where
  user : PlayerId
  isReady : Bool
  score : Nat
  isSpectator : Bool
deriving DecidableEq, Repr, Inhabited

/-- `gameState` of the Room schema. -/
inductive GameState
  | waiting
  | playing
  | finished
deriving DecidableEq, Repr, Inhabited

/-- A quiz question (`gameData.questions` items). -/
structure Question where
  question : String
  options : List String
  correctAnswer : Nat
deriving DecidableEq, Repr, Inhabited

/-- A recorded quiz answer, as `handleQuizMove` pushes it. -/
structure Answer where
  player : PlayerId
  questionIndex : Nat
  answer : Nat
  timeAnswered : Nat
  timestamp : Nat
deriving DecidableEq, Repr, Inhabited

/-- A cell mark: `""`, `"X"` or `"O"`. -/
abbrev Cell := String

/-- The tic-tac-toe grid, a list of rows. -/
abbrev Board := List (List Cell)

/-- `gameData` of the Room schema (shared by both game variants). -/
structure GameData where
  board : Board
  currentTurn : Option PlayerId
  winner : Option PlayerId
  currentQuestion : Nat
  questions : List Question
  answers : List Answer
  questionSentAt : Option Nat
deriving DecidableEq, Repr, Inhabited

/-- The room state the socket handlers read and write. -/
structure Room where
  players : List Player
  gameState : GameState
  gameData : GameData
deriving DecidableEq, Repr, Inhabited

/-! ### JavaScript array helpers

`Array.prototype.findIndex` and `Array.prototype.map` with the index
argument, embedded directly so the handler translations read like the
source. -/

/-- JS `findIndex`, as an optional index. -/
def jsFindIndex? (p : α → Bool) : List α → Option Nat
  | [] => none
  | x :: xs => if p x then some 0 else (jsFindIndex? p xs).map (· + 1)

/-- JS `findIndex` (`-1` when no element matches). -/
def jsFindIndex (p : α → Bool) (l : List α) : Int :=
  match jsFindIndex? p l with
  | some i => (i : Int)
  | none => -1

/-- JS `map((x, i) => ...)`. -/
def mapWithIndex (f : Nat → α → β) : List α → List β
  | [] => []
  | x :: xs => f 0 x :: mapWithIndex (fun i a => f (i + 1) a) xs

/-- `board[r][c]`, with the schema default `""` outside the grid. -/
def cellAt (b : Board) (r c : Nat) : Cell := (b.getD r []).getD c ""

/-- The board update performed on a successful move:
`board.map((boardRow, r) => boardRow.map((cell, c) =>
  (r === row && c === col) ? symbol : cell))`. -/
def setCell (b : Board) (row col : Nat) (symbol : Cell) : Board :=
  mapWithIndex (fun r boardRow =>
    mapWithIndex (fun c cell => if r = row ∧ c = col then symbol else cell) boardRow) b

/-- One line test of `checkTicTacToeWinner`:
`cells[0] && cells[0] === cells[1] && cells[0] === cells[2]`. -/
def lineOwner (a b c : Cell) : Bool :=
  a != "" && a == b && a == c

/-- `checkTicTacToeWinner` (socketHandler.js 1023-1042): the loop checks row
`i` then column `i` for `i = 0, 1, 2`, then the two diagonals. -/
def checkTicTacToeWinner (b : Board) : Option Cell :=
  if lineOwner (cellAt b 0 0) (cellAt b 0 1) (cellAt b 0 2) then some (cellAt b 0 0)
  else if lineOwner (cellAt b 0 0) (cellAt b 1 0) (cellAt b 2 0) then some (cellAt b 0 0)
  else if lineOwner (cellAt b 1 0) (cellAt b 1 1) (cellAt b 1 2) then some (cellAt b 1 0)
  else if lineOwner (cellAt b 0 1) (cellAt b 1 1) (cellAt b 2 1) then some (cellAt b 0 1)
  else if lineOwner (cellAt b 2 0) (cellAt b 2 1) (cellAt b 2 2) then some (cellAt b 2 0)
  else if lineOwner (cellAt b 0 2) (cellAt b 1 2) (cellAt b 2 2) then some (cellAt b 0 2)
  else if lineOwner (cellAt b 0 0) (cellAt b 1 1) (cellAt b 2 2) then some (cellAt b 0 0)
  else if lineOwner (cellAt b 0 2) (cellAt b 1 1) (cellAt b 2 0) then some (cellAt b 0 2)
  else none

/-- `isBoardFull` (socketHandler.js 1044-1046). -/
def isBoardFull (b : Board) : Bool :=
  b.all (fun row => row.all (fun cell => cell != ""))

/-- The active (non-spectator) players, in join order:
`room.players.filter(p => !p.isSpectator)`. -/
def activeOf (room : Room) : List Player :=
  room.players.filter (fun p => !p.isSpectator)

/-- Rejection reasons of the tic-tac-toe move handler, one per
`socket.emit('error', ...)` branch. -/
inductive MoveError
  | gameNotActive
  | notYourTurn
  | outOfBounds
  | cellOccupied
  | playerNotFound
deriving DecidableEq, Repr

/-- A tic-tac-toe move payload `{row, col}` (client-supplied, so signed). -/
structure TTTMove where
  row : Int
  col : Int
deriving DecidableEq, Repr

/-- `handleTicTacToeMove` (socketHandler.js 832-936), combined with the
`game-move` listener's own `gameState` check (672-699).  The result is the
room state after the durable write together with the error reported to the
initiating connection, if any; an error branch performs no mutation.  (A
null `currentTurn` would throw in the source before the turn comparison;
it is totalised here as a turn rejection, and every theorem below is
stated for rooms whose `currentTurn` is set.) -/
def handleTicTacToeMove (room : Room) (uid : PlayerId) (m : TTTMove) :
    Room × Option MoveError :=
  if room.gameState ≠ GameState.playing then (room, some MoveError.gameNotActive)
  else if room.gameData.currentTurn ≠ some uid then (room, some MoveError.notYourTurn)
  else if m.row < 0 ∨ m.row > 2 ∨ m.col < 0 ∨ m.col > 2 then
    (room, some MoveError.outOfBounds)
  else if cellAt room.gameData.board m.row.toNat m.col.toNat ≠ "" then
    (room, some MoveError.cellOccupied)
  else
    match jsFindIndex? (fun p => p.user == uid) (activeOf room) with
    | none => (room, some MoveError.playerNotFound)
    | some playerIndex =>
      let symbol : Cell := if playerIndex = 0 then "X" else "O"
      let newBoard := setCell room.gameData.board m.row.toNat m.col.toNat symbol
      match checkTicTacToeWinner newBoard with
      | some _ =>
        -- the index is always found: uid is a member of the filtered active list
        let fullPlayerIndex := (jsFindIndex (fun p => p.user == uid) room.players).toNat
        let p := room.players.getD fullPlayerIndex default
        ({ room with
            gameState := GameState.finished,
            players := room.players.set fullPlayerIndex { p with score := p.score + 10 },
            gameData := { room.gameData with board := newBoard, winner := some uid } },
          none)
      | none =>
        if isBoardFull newBoard then
          ({ room with
              gameState := GameState.finished,
              gameData := { room.gameData with board := newBoard } },
            none)
        else
          let activePlayers := activeOf room
          let currentPlayerIndex :=
            jsFindIndex (fun p => some p.user == room.gameData.currentTurn) activePlayers
          let nextPlayerIndex := ((currentPlayerIndex + 1) % (activePlayers.length : Int)).toNat
          ({ room with
              gameData := { room.gameData with
                board := newBoard,
                currentTurn := some ((activePlayers.getD nextPlayerIndex default).user) } },
            none)

/-! ### Quiz (timed-round) engine -/

/-- A quiz move payload.  The client may attach a self-declared
`timeAnswered`; `handleQuizMove` destructures only `questionIndex` and
`selectedAnswer`, so the field is carried here but never read. -/
structure QuizMove where
  questionIndex : Nat
  selectedAnswer : Nat
  timeAnswered : Nat
deriving DecidableEq, Repr

/-- The answer record `handleQuizMove` pushes (socketHandler.js 960-966).
`Math.max(0, Math.floor((now - questionSentAt) / 1000))` coincides with
truncated natural subtraction and division. -/
def recordedAnswer (room : Room) (uid : PlayerId) (m : QuizMove) (now : Nat) : Answer :=
  { player := uid
    questionIndex := m.questionIndex
    answer := m.selectedAnswer
    timeAnswered :=
      match room.gameData.questionSentAt with
      | some sentAt => (now - sentAt) / 1000
      | none => 20
    timestamp := now }

/-- The scoring step of `processQuizQuestion` for one recorded answer
(socketHandler.js 265-277): find the answering player, and if the chosen
option equals the correct index add 10 points plus 5 when
`timeAnswered <= 5`. -/
def applyAnswer (correctAnswer : Nat) (ps : List Player) (a : Answer) : List Player :=
  match jsFindIndex? (fun p => p.user == a.player) ps with
  | none => ps
  | some i =>
    if a.answer == correctAnswer then
      let p := ps.getD i default
      ps.set i { p with score := p.score + (10 + (if a.timeAnswered ≤ 5 then 5 else 0)) }
    else ps

/-- The updated player record `applyAnswer` writes at the found index. -/
def scoredPlayer (ps : List Player) (i : Nat) (a : Answer) : Player :=
  { ps.getD i default with
    score := (ps.getD i default).score + (10 + (if a.timeAnswered ≤ 5 then 5 else 0)) }

/-- `processQuizQuestion` (socketHandler.js 237-321), restricted to its
state effect: score every answer recorded for `questionIndex` against the
question's correct index, then advance `currentQuestion` by one.  (The
broadcasts, result-display timers and the deferred end-of-game transition
are outside the room state.) -/
def processQuizQuestion (room : Room) (questionIndex : Nat) : Room :=
  let question := room.gameData.questions.getD questionIndex default
  let answers := room.gameData.answers.filter (fun a => a.questionIndex == questionIndex)
  { room with
    players := answers.foldl (applyAnswer question.correctAnswer) room.players
    gameData := { room.gameData with currentQuestion := room.gameData.currentQuestion + 1 } }

/-- `handleQuizMove` (socketHandler.js 938-988): a duplicate
(player, questionIndex) submission returns silently before any mutation;
otherwise the answer is recorded with a server-computed elapsed time, and
when every active player has an answer for that index the question is
processed immediately. -/
def handleQuizMove (room : Room) (uid : PlayerId) (m : QuizMove) (now : Nat) : Room :=
  if (room.gameData.answers.find?
      (fun a => a.player == uid && a.questionIndex == m.questionIndex)).isSome then
    room
  else
    let answers := room.gameData.answers ++ [recordedAnswer room uid m now]
    let room1 := { room with gameData := { room.gameData with answers := answers } }
    let activePlayers := activeOf room1
    let answersForQuestion := answers.filter (fun a => a.questionIndex == m.questionIndex)
    if answersForQuestion.length == activePlayers.length then
      processQuizQuestion room1 m.questionIndex
    else
      room1

/-- The `game-move` listener for a quiz room (socketHandler.js 672-699):
moves are dispatched only while `gameState` is `'playing'`; otherwise the
initiating connection gets an error and nothing changes. -/
def gameMoveQuiz (room : Room) (uid : PlayerId) (m : QuizMove) (now : Nat) : Room :=
  if room.gameState ≠ GameState.playing then room
  else handleQuizMove room uid m now

/-! ### Readiness, countdown and restart -/

/-- `checkAndStartCountdown` (socketHandler.js 34-49), run on every join:
returns whether `startCountdown` is invoked.  Only the room state and the
count of active players are consulted - not the ready flags. -/
def checkAndStartCountdown (room : Room) : Bool :=
  if room.gameState ≠ GameState.waiting then false
  else decide (2 ≤ (activeOf room).length)

/-- The `toggle-ready` listener (socketHandler.js 581-624): flip the first
matching player's ready flag, then either invoke `startCountdown` (when
every active player is ready and there is at least one) or emit
`countdown-cancelled`.  Result: the updated room, whether `startCountdown`
was invoked, and whether the cancellation notice was emitted. -/
def toggleReady (room : Room) (uid : PlayerId) : Room × Bool × Bool :=
  match jsFindIndex? (fun p => p.user == uid) room.players with
  | none => (room, false, false)
  | some i =>
    let p := room.players.getD i default
    let room1 := { room with players := room.players.set i { p with isReady := !p.isReady } }
    let activePlayers := activeOf room1
    if 0 < activePlayers.length ∧ activePlayers.all (fun q => q.isReady) then
      (room1, true, false)
    else
      (room1, false, true)

/-- The positional ready-flip `toggle-ready` performs: the first player
entry matching the caller has `isReady` negated. -/
def toggledRoom (room : Room) (i : Nat) : Room :=
  let p := room.players.getD i default
  { room with players := room.players.set i { p with isReady := !p.isReady } }

/-- The `toggle-ready` listener together with the room's timer-registry
entry (`roomTimers.get(roomId)`).  `startCountdown` clears the registry
and records the fresh countdown interval; the not-all-ready branch emits
`countdown-cancelled` but runs no `clearRoomTimers`, so the registered
timers are returned untouched. -/
def toggleReadyWithTimers (room : Room) (timers : List Nat) (uid : PlayerId)
    (freshTimer : Nat) : (Room × List Nat) × Bool × Bool :=
  match jsFindIndex? (fun p => p.user == uid) room.players with
  | none => ((room, timers), false, false)
  | some i =>
    let p := room.players.getD i default
    let room1 := { room with players := room.players.set i { p with isReady := !p.isReady } }
    let activePlayers := activeOf room1
    if 0 < activePlayers.length ∧ activePlayers.all (fun q => q.isReady) then
      ((room1, [freshTimer]), true, false)
    else
      ((room1, timers), false, true)

/-- The `restart-game` listener (socketHandler.js 702-736): back to
`'waiting'`, a fresh `gameData`, and every player's ready flag and score
reset. -/
def restartGame (room : Room) : Room :=
  { room with
    gameState := GameState.waiting
    gameData :=
      { board := [["", "", ""], ["", "", ""], ["", "", ""]]
        currentTurn := none
        winner := none
        currentQuestion := 0
        questions := []
        answers := []
        questionSentAt := none }
    players := room.players.map (fun p => { p with isReady := false, score := 0 }) }

/-! ### Specification-side definitions

These follow the specification's wording and are compared with the
definitions translated from the source. -/

/-- The 8 winning lines the specification names: 3 rows, 3 columns,
2 diagonals. -/
def specLines : List (List (Nat × Nat)) :=
  [ [(0, 0), (0, 1), (0, 2)], [(1, 0), (1, 1), (1, 2)], [(2, 0), (2, 1), (2, 2)],
    [(0, 0), (1, 0), (2, 0)], [(0, 1), (1, 1), (2, 1)], [(0, 2), (1, 2), (2, 2)],
    [(0, 0), (1, 1), (2, 2)], [(0, 2), (1, 1), (2, 0)] ]

/-- A line holds a run of identical non-empty marks. -/
def sameMark (b : Board) : List (Nat × Nat) → Bool
  | [] => false
  | rc :: rest =>
    cellAt b rc.1 rc.2 != "" && rest.all (fun rc2 => cellAt b rc2.1 rc2.2 == cellAt b rc.1 rc.2)

/-- Spec wording: one of the 8 lines holds three identical non-empty marks. -/
def specHasWinner (b : Board) : Bool :=
  specLines.any (sameMark b)

/-- Spec wording: every cell of the 3x3 grid is non-empty. -/
def specAllCellsFilled (b : Board) : Bool :=
  (List.range 3).all (fun r => (List.range 3).all (fun c => cellAt b r c != ""))

/-- The board is an actual 3x3 grid (the Room schema default shape). -/
def isBoard3x3 (b : Board) : Prop :=
  b.length = 3 ∧ ∀ row ∈ b, row.length = 3

instance (b : Board) : Decidable (isBoard3x3 b) := by
  unfold isBoard3x3
  infer_instance

/-- The cumulative score of the first player entry with the given
identity (0 when absent). -/
def scoreOf (players : List Player) (uid : PlayerId) : Nat :=
  match players.find? (fun p => p.user == uid) with
  | some p => p.score
  | none => 0

/-- The scoring contribution of one recorded answer, as the specification
states it: 10 for the correct option plus 5 when the server-recorded
elapsed time is at most 5 seconds, else nothing. -/
def answerContribution (correctAnswer : Nat) (a : Answer) : Nat :=
  if a.answer == correctAnswer then 10 + (if a.timeAnswered ≤ 5 then 5 else 0) else 0

/-- At most one recorded answer per (player, round index) pair. -/
def answerKeysNodup (answers : List Answer) : Prop :=
  (answers.map (fun a => (a.player, a.questionIndex))).Nodup

/-! ### Concrete room states used by witnesses and counterexamples -/

/-- An empty 3x3 board. -/
def emptyBoard : Board := [["", "", ""], ["", "", ""], ["", "", ""]]

/-- A fresh tic-tac-toe game: players 1 and 2 active, player 1 to move. -/
def exRoomTTT : Room :=
  { players :=
      [ { user := 1, isReady := true, score := 0, isSpectator := false }
      , { user := 2, isReady := true, score := 3, isSpectator := false } ]
    gameState := GameState.playing
    gameData :=
      { board := emptyBoard, currentTurn := some 1, winner := none
        currentQuestion := 0, questions := [], answers := [], questionSentAt := none } }

/-- Player 1 has taken (0,0); player 2 to move. -/
def exRoomTTTOccupied : Room :=
  { players :=
      [ { user := 1, isReady := true, score := 0, isSpectator := false }
      , { user := 2, isReady := true, score := 0, isSpectator := false } ]
    gameState := GameState.playing
    gameData :=
      { board := [["X", "", ""], ["", "", ""], ["", "", ""]], currentTurn := some 2
        winner := none, currentQuestion := 0, questions := [], answers := []
        questionSentAt := none } }

/-- A quiz room mid-round: question 0 active, correct option 2, no answers yet. -/
def exRoomQuiz : Room :=
  { players :=
      [ { user := 1, isReady := true, score := 0, isSpectator := false }
      , { user := 2, isReady := true, score := 4, isSpectator := false } ]
    gameState := GameState.playing
    gameData :=
      { board := emptyBoard, currentTurn := none, winner := none
        currentQuestion := 0
        questions := [{ question := "q0", options := ["a", "b", "c", "d"], correctAnswer := 2 }]
        answers := [], questionSentAt := some 100000 } }

/-- A quiz room whose current round is already 1 (question 0 processed). -/
def exRoomQuizRound1 : Room :=
  { players :=
      [ { user := 1, isReady := true, score := 10, isSpectator := false }
      , { user := 2, isReady := true, score := 0, isSpectator := false } ]
    gameState := GameState.playing
    gameData :=
      { board := emptyBoard, currentTurn := none, winner := none
        currentQuestion := 1
        questions :=
          [ { question := "q0", options := ["a", "b"], correctAnswer := 0 }
          , { question := "q1", options := ["a", "b"], correctAnswer := 1 } ]
        answers := [], questionSentAt := some 200000 } }

/-- A waiting room with a single active, not yet ready player. -/
def exRoomSolo : Room :=
  { players := [{ user := 1, isReady := false, score := 0, isSpectator := false }]
    gameState := GameState.waiting
    gameData :=
      { board := emptyBoard, currentTurn := none, winner := none
        currentQuestion := 0, questions := [], answers := [], questionSentAt := none } }

/-- A waiting room with two active players, none of them ready. -/
def exRoomUnreadyPair : Room :=
  { players :=
      [ { user := 1, isReady := false, score := 0, isSpectator := false }
      , { user := 2, isReady := false, score := 0, isSpectator := false } ]
    gameState := GameState.waiting
    gameData :=
      { board := emptyBoard, currentTurn := none, winner := none
        currentQuestion := 0, questions := [], answers := [], questionSentAt := none } }

/-- A waiting room with two active players, both ready (countdown armed). -/
def exRoomBothReady : Room :=
  { players :=
      [ { user := 1, isReady := true, score := 0, isSpectator := false }
      , { user := 2, isReady := true, score := 0, isSpectator := false } ]
    gameState := GameState.waiting
    gameData :=
      { board := emptyBoard, currentTurn := none, winner := none
        currentQuestion := 0, questions := [], answers := [], questionSentAt := none } }

/-- A quiz room with both answers for round 0 recorded: player 1 chose the
correct option 2 after 3 seconds, player 2 chose option 1 after 2 seconds. -/
def exRoomQuizScored : Room :=
  { players :=
      [ { user := 1, isReady := true, score := 20, isSpectator := false }
      , { user := 2, isReady := true, score := 5, isSpectator := false } ]
    gameState := GameState.playing
    gameData :=
      { board := emptyBoard, currentTurn := none, winner := none
        currentQuestion := 0
        questions := [{ question := "q0", options := ["a", "b", "c", "d"], correctAnswer := 2 }]
        answers :=
          [ { player := 1, questionIndex := 0, answer := 2, timeAnswered := 3, timestamp := 103000 }
          , { player := 2, questionIndex := 0, answer := 1, timeAnswered := 2, timestamp := 102000 } ]
        questionSentAt := some 100000 } }

/-! ### List lemmas for the embedded JS array operations -/

theorem length_mapWithIndex (f : Nat → α → β) (l : List α) :
    (mapWithIndex f l).length = l.length := by
  induction l generalizing f with
  | nil => rfl
  | cons x xs ih => simp [mapWithIndex, ih]

theorem getD_mapWithIndex (f : Nat → α → β) (l : List α) (n : Nat) (dα : α) (dβ : β) :
    (mapWithIndex f l).getD n dβ = if n < l.length then f n (l.getD n dα) else dβ := by
  induction l generalizing f n with
  | nil => simp [mapWithIndex]
  | cons x xs ih =>
    cases n with
    | zero => simp [mapWithIndex]
    | succ n =>
      simp only [mapWithIndex, List.getD_cons_succ, List.length_cons]
      rw [ih]
      simp [Nat.succ_lt_succ_iff]

theorem jsFindIndex?_nil (p : α → Bool) : jsFindIndex? p [] = none := rfl

theorem jsFindIndex?_cons (p : α → Bool) (x : α) (xs : List α) :
    jsFindIndex? p (x :: xs) =
      if p x then some 0 else (jsFindIndex? p xs).map (· + 1) := rfl

theorem mapWithIndex_nil (f : Nat → α → β) : mapWithIndex f [] = [] := rfl

theorem mapWithIndex_cons (f : Nat → α → β) (x : α) (xs : List α) :
    mapWithIndex f (x :: xs) = f 0 x :: mapWithIndex (fun i a => f (i + 1) a) xs := rfl

theorem cellAt_setCell (b : Board) (row col r c : Nat) (symbol : Cell) :
    cellAt (setCell b row col symbol) r c =
      if r < b.length ∧ c < (b.getD r []).length ∧ r = row ∧ c = col then symbol
      else cellAt b r c := by
  unfold cellAt setCell
  rw [getD_mapWithIndex _ _ _ []]
  by_cases hr : r < b.length
  · rw [if_pos hr]
    show (mapWithIndex _ (b.getD r [])).getD c "" = _
    rw [getD_mapWithIndex _ _ _ ""]
    by_cases hc : c < (b.getD r []).length
    · rw [if_pos hc]
      show (if r = row ∧ c = col then symbol else (b.getD r []).getD c "") = _
      by_cases hrc : r = row ∧ c = col
      · rw [if_pos hrc, if_pos ⟨hr, hc, hrc.1, hrc.2⟩]
      · rw [if_neg hrc, if_neg (by tauto)]
    · rw [if_neg hc, if_neg (by tauto),
        List.getD_eq_default _ _ (Nat.le_of_not_lt hc)]
  · rw [if_neg hr, if_neg (by tauto),
      List.getD_eq_default _ _ (Nat.le_of_not_lt hr)]

theorem cellAt_setCell_self (b : Board) (row col : Nat) (symbol : Cell)
    (hr : row < b.length) (hc : col < (b.getD row []).length) :
    cellAt (setCell b row col symbol) row col = symbol := by
  rw [cellAt_setCell, if_pos ⟨hr, hc, rfl, rfl⟩]

theorem cellAt_setCell_ne (b : Board) (row col r c : Nat) (symbol : Cell)
    (h : ¬(r = row ∧ c = col)) :
    cellAt (setCell b row col symbol) r c = cellAt b r c := by
  rw [cellAt_setCell, if_neg (by tauto)]

theorem jsFindIndex?_some (p : α → Bool) (l : List α) (i : Nat)
    (h : jsFindIndex? p l = some i) :
    ∃ hi : i < l.length, p (l.get ⟨i, hi⟩) = true := by
  induction l generalizing i with
  | nil => simp [jsFindIndex?_nil] at h
  | cons x xs ih =>
    rw [jsFindIndex?_cons] at h
    by_cases hx : p x
    · rw [if_pos hx] at h
      obtain rfl : (0 : Nat) = i := Option.some.inj h
      exact ⟨Nat.succ_pos _, hx⟩
    · rw [if_neg hx] at h
      simp only [Option.map_eq_some'] at h
      obtain ⟨j, hj, rfl⟩ := h
      obtain ⟨hlt, hp⟩ := ih j hj
      exact ⟨Nat.succ_lt_succ hlt, hp⟩

theorem jsFindIndex?_isSome_of_mem (p : α → Bool) (l : List α) (x : α)
    (hmem : x ∈ l) (hx : p x = true) : (jsFindIndex? p l).isSome := by
  induction l with
  | nil => simp at hmem
  | cons y ys ih =>
    rw [jsFindIndex?_cons]
    by_cases hy : p y
    · simp [hy]
    · rcases List.mem_cons.mp hmem with rfl | hmem2
      · exact absurd hx (by simp [hy])
      · have := ih hmem2
        cases h : jsFindIndex? p ys with
        | none => rw [h] at this; simp at this
        | some j => simp [hy, h]

theorem find?_eq_some_getD (p : α → Bool) (l : List α) (i : Nat) (d : α)
    (h : jsFindIndex? p l = some i) :
    l.find? p = some (l.getD i d) := by
  induction l generalizing i with
  | nil => simp [jsFindIndex?_nil] at h
  | cons x xs ih =>
    rw [jsFindIndex?_cons] at h
    by_cases hx : p x
    · rw [if_pos hx] at h
      obtain rfl : (0 : Nat) = i := Option.some.inj h
      simp [List.find?_cons, hx]
    · rw [if_neg hx] at h
      simp only [Option.map_eq_some'] at h
      obtain ⟨j, hj, rfl⟩ := h
      simp only [List.find?_cons, hx, List.getD_cons_succ]
      exact ih j hj

theorem find?_set_jsFindIndex? (p : α → Bool) (l : List α) (i : Nat) (x : α)
    (h : jsFindIndex? p l = some i) (hx : p x = true) :
    (l.set i x).find? p = some x := by
  induction l generalizing i with
  | nil => simp [jsFindIndex?_nil] at h
  | cons y ys ih =>
    rw [jsFindIndex?_cons] at h
    by_cases hy : p y
    · rw [if_pos hy] at h
      obtain rfl : (0 : Nat) = i := Option.some.inj h
      simp [List.find?_cons, hx]
    · rw [if_neg hy] at h
      simp only [Option.map_eq_some'] at h
      obtain ⟨j, hj, rfl⟩ := h
      simp only [List.set_cons_succ, List.find?_cons, hy]
      exact ih j hj

theorem find?_set_preserved (p : α → Bool) (l : List α) (i : Nat) (x : α)
    (hx : p x = false)
    (hold : ∀ hi : i < l.length, p (l.get ⟨i, hi⟩) = false) :
    (l.set i x).find? p = l.find? p := by
  induction l generalizing i with
  | nil => simp
  | cons y ys ih =>
    cases i with
    | zero =>
      have hy : p y = false := hold (Nat.succ_pos _)
      simp [List.find?_cons, hx, hy]
    | succ j =>
      simp only [List.set_cons_succ, List.find?_cons]
      cases hy : p y with
      | true => rfl
      | false => exact ih j (fun hj => hold (Nat.succ_lt_succ hj))

theorem find?_eq_head?_filter (p : α → Bool) (l : List α) :
    l.find? p = (l.filter p).head? := by
  induction l with
  | nil => rfl
  | cons x xs ih =>
    by_cases hx : p x
    · rw [List.find?_cons, List.filter_cons]
      simp only [hx, if_pos, cond_true, List.head?_cons]
    · rw [List.find?_cons, List.filter_cons]
      simp only [hx, cond_false]
      exact ih

/-! ### Board-shape lemmas and the winner-check refinement -/

theorem isBoard3x3_explicit (b : Board) (h3 : isBoard3x3 b) :
    ∃ a₀₀ a₀₁ a₀₂ a₁₀ a₁₁ a₁₂ a₂₀ a₂₁ a₂₂ : Cell,
      b = [[a₀₀, a₀₁, a₀₂], [a₁₀, a₁₁, a₁₂], [a₂₀, a₂₁, a₂₂]] := by
  obtain ⟨hlen, hrow⟩ := h3
  obtain ⟨r0, r1, r2, rfl⟩ := List.length_eq_three.mp hlen
  obtain ⟨a₀₀, a₀₁, a₀₂, h0⟩ := List.length_eq_three.mp (hrow r0 (by simp))
  obtain ⟨a₁₀, a₁₁, a₁₂, h1⟩ := List.length_eq_three.mp (hrow r1 (by simp))
  obtain ⟨a₂₀, a₂₁, a₂₂, h2⟩ := List.length_eq_three.mp (hrow r2 (by simp))
  subst h0 h1 h2
  exact ⟨_, _, _, _, _, _, _, _, _, rfl⟩

theorem isBoard3x3_setCell (b : Board) (h3 : isBoard3x3 b) (row col : Nat) (s : Cell) :
    isBoard3x3 (setCell b row col s) := by
  obtain ⟨a₀₀, a₀₁, a₀₂, a₁₀, a₁₁, a₁₂, a₂₀, a₂₁, a₂₂, rfl⟩ := isBoard3x3_explicit b h3
  simp [setCell, mapWithIndex, isBoard3x3]

theorem beq_swap [BEq α] [LawfulBEq α] (a b : α) : (a == b) = (b == a) := by
  by_cases h : a = b
  · subst h; rfl
  · rw [beq_eq_false_iff_ne.mpr h, beq_eq_false_iff_ne.mpr (Ne.symm h)]

theorem sameMark_triple (b : Board) (r₁ c₁ r₂ c₂ r₃ c₃ : Nat) :
    sameMark b [(r₁, c₁), (r₂, c₂), (r₃, c₃)] =
      lineOwner (cellAt b r₁ c₁) (cellAt b r₂ c₂) (cellAt b r₃ c₃) := by
  simp only [sameMark, lineOwner, List.all_cons, List.all_nil, Bool.and_true,
    Bool.and_assoc]
  rw [beq_swap (cellAt b r₂ c₂), beq_swap (cellAt b r₃ c₃)]

theorem checkTicTacToeWinner_isSome_eq (b : Board) :
    (checkTicTacToeWinner b).isSome = specHasWinner b := by
  unfold checkTicTacToeWinner
  split_ifs with h1 h2 h3 h4 h5 h6 h7 h8 <;>
    simp_all only [specHasWinner, specLines, List.any_cons, List.any_nil,
      sameMark_triple, Bool.or_false, Bool.or_true, Bool.true_or, Bool.false_or,
      Option.isSome_some, Option.isSome_none]

theorem isBoardFull_eq_spec (b : Board) (h3 : isBoard3x3 b) :
    isBoardFull b = specAllCellsFilled b := by
  obtain ⟨a₀₀, a₀₁, a₀₂, a₁₀, a₁₁, a₁₂, a₂₀, a₂₁, a₂₂, rfl⟩ := isBoard3x3_explicit b h3
  rfl

theorem jsFindIndex_eq (p : α → Bool) (l : List α) (i : Nat)
    (h : jsFindIndex? p l = some i) : jsFindIndex p l = (i : Int) := by
  unfold jsFindIndex
  rw [h]

theorem jsNextIndex (i n : Nat) :
    (((i : Int) + 1) % (n : Int)).toNat = (i + 1) % n := by
  have h1 : ((i : Int) + 1) = ((i + 1 : Nat) : Int) := by push_cast; ring
  rw [h1, ← Int.natCast_mod]
  exact Int.toNat_natCast _

theorem getD_length_of_isBoard3x3 (b : Board) (h3 : isBoard3x3 b) (r : Nat)
    (hr : r < b.length) : (b.getD r []).length = 3 := by
  have hmem : b.getD r [] ∈ b := by
    rw [List.getD_eq_getElem _ _ hr]
    exact List.getElem_mem _
  exact h3.2 _ hmem

theorem handleTicTacToeMove_success_eq (room : Room) (uid : PlayerId) (m : TTTMove)
    (idx : Nat)
    (hstate : room.gameState = GameState.playing)
    (hturn : room.gameData.currentTurn = some uid)
    (hrow0 : 0 ≤ m.row) (hrow2 : m.row ≤ 2) (hcol0 : 0 ≤ m.col) (hcol2 : m.col ≤ 2)
    (hempty : cellAt room.gameData.board m.row.toNat m.col.toNat = "")
    (hidx : jsFindIndex? (fun p => p.user == uid) (activeOf room) = some idx) :
    handleTicTacToeMove room uid m =
      (let symbol : Cell := if idx = 0 then "X" else "O"
       let newBoard := setCell room.gameData.board m.row.toNat m.col.toNat symbol
       match checkTicTacToeWinner newBoard with
       | some _ =>
         let fullPlayerIndex := (jsFindIndex (fun p => p.user == uid) room.players).toNat
         let p := room.players.getD fullPlayerIndex default
         ({ room with
             gameState := GameState.finished,
             players := room.players.set fullPlayerIndex { p with score := p.score + 10 },
             gameData := { room.gameData with board := newBoard, winner := some uid } },
           none)
       | none =>
         if isBoardFull newBoard then
           ({ room with
               gameState := GameState.finished,
               gameData := { room.gameData with board := newBoard } },
             none)
         else
           let activePlayers := activeOf room
           let currentPlayerIndex :=
             jsFindIndex (fun p => some p.user == room.gameData.currentTurn) activePlayers
           let nextPlayerIndex := ((currentPlayerIndex + 1) % (activePlayers.length : Int)).toNat
           ({ room with
               gameData := { room.gameData with
                 board := newBoard,
                 currentTurn := some ((activePlayers.getD nextPlayerIndex default).user) } },
             none)) := by
  unfold handleTicTacToeMove
  rw [if_neg (not_not_intro hstate), if_neg (not_not_intro hturn),
    if_neg (by omega : ¬(m.row < 0 ∨ m.row > 2 ∨ m.col < 0 ∨ m.col > 2)),
    if_neg (not_not_intro hempty), hidx]

/-- C1: a precondition-satisfying tic-tac-toe move writes the acting
player's mark (the first mark `"X"` for active index 0, `"O"` for index 1)
into exactly the addressed cell; then, if one of the 8 lines holds three
identical non-empty marks the mover becomes the winner, the game finishes
and the winner's score grows by the fixed bonus of 10; else a full board
finishes the game with no winner; else the turn advances to the next
active player in join order, wrapping around. -/
theorem C1_move_mark_win_draw_advance (room : Room) (uid : PlayerId)
    (m : TTTMove) (idx : Nat)
    (h3 : isBoard3x3 room.gameData.board)
    (hstate : room.gameState = GameState.playing)
    (hturn : room.gameData.currentTurn = some uid)
    (hrow0 : 0 ≤ m.row) (hrow2 : m.row ≤ 2) (hcol0 : 0 ≤ m.col) (hcol2 : m.col ≤ 2)
    (hempty : cellAt room.gameData.board m.row.toNat m.col.toNat = "")
    (hidx : jsFindIndex? (fun p => p.user == uid) (activeOf room) = some idx)
    (hwin0 : room.gameData.winner = none) :
    (handleTicTacToeMove room uid m).2 = none ∧
    (handleTicTacToeMove room uid m).1.gameData.board =
      setCell room.gameData.board m.row.toNat m.col.toNat (if idx = 0 then "X" else "O") ∧
    cellAt (handleTicTacToeMove room uid m).1.gameData.board m.row.toNat m.col.toNat =
      (if idx = 0 then "X" else "O") ∧
    (∀ r c : Nat, ¬(r = m.row.toNat ∧ c = m.col.toNat) →
      cellAt (handleTicTacToeMove room uid m).1.gameData.board r c =
        cellAt room.gameData.board r c) ∧
    (specHasWinner (handleTicTacToeMove room uid m).1.gameData.board = true →
      (handleTicTacToeMove room uid m).1.gameData.winner = some uid ∧
      (handleTicTacToeMove room uid m).1.gameState = GameState.finished ∧
      scoreOf (handleTicTacToeMove room uid m).1.players uid =
        scoreOf room.players uid + 10) ∧
    (specHasWinner (handleTicTacToeMove room uid m).1.gameData.board = false →
      specAllCellsFilled (handleTicTacToeMove room uid m).1.gameData.board = true →
      (handleTicTacToeMove room uid m).1.gameState = GameState.finished ∧
      (handleTicTacToeMove room uid m).1.gameData.winner = none) ∧
    (specHasWinner (handleTicTacToeMove room uid m).1.gameData.board = false →
      specAllCellsFilled (handleTicTacToeMove room uid m).1.gameData.board = false →
      (handleTicTacToeMove room uid m).1.gameState = GameState.playing ∧
      (handleTicTacToeMove room uid m).1.gameData.currentTurn =
        some (((activeOf room).getD ((idx + 1) % (activeOf room).length) default).user)) := by
  have heq := handleTicTacToeMove_success_eq room uid m idx hstate hturn
    hrow0 hrow2 hcol0 hcol2 hempty hidx
  have hr : m.row.toNat < room.gameData.board.length := by
    rw [h3.1]; omega
  have hc : m.col.toNat < (room.gameData.board.getD m.row.toNat []).length := by
    rw [getD_length_of_isBoard3x3 _ h3 _ hr]; omega
  have h3nb : isBoard3x3 (setCell room.gameData.board m.row.toNat m.col.toNat
      (if idx = 0 then "X" else "O")) := isBoard3x3_setCell _ h3 _ _ _
  have hcellself : cellAt (setCell room.gameData.board m.row.toNat m.col.toNat
      (if idx = 0 then "X" else "O")) m.row.toNat m.col.toNat =
      (if idx = 0 then "X" else "O") := cellAt_setCell_self _ _ _ _ hr hc
  -- facts about uid's position in the full player list, for the win branch
  obtain ⟨hlt, hp⟩ := jsFindIndex?_some _ _ _ hidx
  have hmemplayers : (activeOf room).get ⟨idx, hlt⟩ ∈ room.players :=
    (List.mem_filter.mp (List.get_mem _ _ hlt)).1
  have hsome : (jsFindIndex? (fun p => p.user == uid) room.players).isSome :=
    jsFindIndex?_isSome_of_mem _ _ _ hmemplayers hp
  obtain ⟨j, hj⟩ := Option.isSome_iff_exists.mp hsome
  have htoNat : (jsFindIndex (fun p => p.user == uid) room.players).toNat = j := by
    rw [jsFindIndex_eq _ _ _ hj]; exact Int.toNat_natCast _
  have hfind : room.players.find? (fun p => p.user == uid) =
      some (room.players.getD j default) := find?_eq_some_getD _ _ _ _ hj
  have hpj := List.find?_some hfind
  have hpredeq : (fun p : Player => some p.user == room.gameData.currentTurn) =
      (fun p : Player => p.user == uid) := by
    funext p
    rw [hturn]
    rfl
  have hjs2 : jsFindIndex (fun p => some p.user == room.gameData.currentTurn)
      (activeOf room) = (idx : Int) := by
    rw [hpredeq]; exact jsFindIndex_eq _ _ _ hidx
  cases hW : checkTicTacToeWinner (setCell room.gameData.board m.row.toNat m.col.toNat
      (if idx = 0 then "X" else "O")) with
  | some w =>
    have hspec : specHasWinner (setCell room.gameData.board m.row.toNat m.col.toNat
        (if idx = 0 then "X" else "O")) = true := by
      rw [← checkTicTacToeWinner_isSome_eq, hW]; rfl
    have hres : handleTicTacToeMove room uid m =
        ({ room with
            gameState := GameState.finished,
            players := room.players.set j
              { room.players.getD j default with
                score := (room.players.getD j default).score + 10 },
            gameData := { room.gameData with
              board := setCell room.gameData.board m.row.toNat m.col.toNat
                (if idx = 0 then "X" else "O"),
              winner := some uid } }, none) := by
      rw [heq]
      simp only [hW, htoNat]
    rw [hres]
    refine ⟨rfl, rfl, hcellself, fun r c h => cellAt_setCell_ne _ _ _ _ _ _ h,
      fun _ => ⟨rfl, rfl, ?_⟩,
      fun h _ => absurd (h.symm.trans hspec) Bool.false_ne_true,
      fun h _ => absurd (h.symm.trans hspec) Bool.false_ne_true⟩
    have hsetfind := find?_set_jsFindIndex? (fun p => p.user == uid) room.players j
      { room.players.getD j default with
        score := (room.players.getD j default).score + 10 } hj hpj
    simp only [scoreOf, hsetfind, hfind]
  | none =>
    have hspec : specHasWinner (setCell room.gameData.board m.row.toNat m.col.toNat
        (if idx = 0 then "X" else "O")) = false := by
      rw [← checkTicTacToeWinner_isSome_eq, hW]; rfl
    rcases Bool.eq_false_or_eq_true (isBoardFull (setCell room.gameData.board
        m.row.toNat m.col.toNat (if idx = 0 then "X" else "O"))) with hfull | hfull
    · -- board full: draw
      have hfilled : specAllCellsFilled (setCell room.gameData.board m.row.toNat
          m.col.toNat (if idx = 0 then "X" else "O")) = true := by
        rw [← isBoardFull_eq_spec _ h3nb]; exact hfull
      have hres : handleTicTacToeMove room uid m =
          ({ room with
              gameState := GameState.finished,
              gameData := { room.gameData with
                board := setCell room.gameData.board m.row.toNat m.col.toNat
                  (if idx = 0 then "X" else "O") } }, none) := by
        rw [heq]
        simp [hW, hfull]
      rw [hres]
      exact ⟨rfl, rfl, hcellself, fun r c h => cellAt_setCell_ne _ _ _ _ _ _ h,
        fun h => absurd (hspec.symm.trans h) Bool.false_ne_true,
        fun _ _ => ⟨rfl, hwin0⟩,
        fun _ h => absurd (h.symm.trans hfilled) Bool.false_ne_true⟩

    · -- board not full: the turn advances
      have hfilled : specAllCellsFilled (setCell room.gameData.board m.row.toNat
          m.col.toNat (if idx = 0 then "X" else "O")) = false := by
        rw [← isBoardFull_eq_spec _ h3nb]; exact hfull
      have hres : handleTicTacToeMove room uid m =
          ({ room with gameData := { room.gameData with
              board := setCell room.gameData.board m.row.toNat m.col.toNat
                (if idx = 0 then "X" else "O"),
              currentTurn := some (((activeOf room).getD
                ((idx + 1) % (activeOf room).length) default).user) } }, none) := by
        rw [heq]
        simp [hW, hfull, hjs2, jsNextIndex]
      rw [hres]
      exact ⟨rfl, rfl, hcellself, fun r c h => cellAt_setCell_ne _ _ _ _ _ _ h,
        fun h => absurd (hspec.symm.trans h) Bool.false_ne_true,
        fun _ h => absurd (hfilled.symm.trans h) Bool.false_ne_true,
        fun _ _ => ⟨hstate, rfl⟩⟩

/-- Witness for C1 at a concrete fresh game: player 1 (active index 0)
takes (0,0); the move is accepted and the turn advances to the next
active player in join order. -/
theorem C1_move_mark_win_draw_advance_witness :
    (handleTicTacToeMove exRoomTTT 1 ⟨0, 0⟩).2 = none ∧
    cellAt (handleTicTacToeMove exRoomTTT 1 ⟨0, 0⟩).1.gameData.board 0 0 = "X" ∧
    (handleTicTacToeMove exRoomTTT 1 ⟨0, 0⟩).1.gameData.currentTurn =
      some (((activeOf exRoomTTT).getD ((0 + 1) % (activeOf exRoomTTT).length)
        default).user) := by
  have h := C1_move_mark_win_draw_advance exRoomTTT 1 ⟨0, 0⟩ 0 (by decide) rfl rfl
    (by decide) (by decide) (by decide) (by decide) rfl rfl rfl
  exact ⟨h.1, h.2.2.1, (h.2.2.2.2.2.2 (by decide) (by decide)).2⟩

/-- C6: the tic-tac-toe move handler checks its preconditions in the order
game-active, turn, bounds, occupancy; the first violated precondition
yields the matching rejection reason for the initiating connection, and
every rejected move leaves the room (board, turn, scores, gameState)
unchanged. -/
theorem C6_rejection_order_and_no_mutation (room : Room) (uid : PlayerId)
    (m : TTTMove) (t : PlayerId)
    (hturn : room.gameData.currentTurn = some t) :
    (room.gameState ≠ GameState.playing →
      handleTicTacToeMove room uid m = (room, some MoveError.gameNotActive)) ∧
    (room.gameState = GameState.playing → uid ≠ t →
      handleTicTacToeMove room uid m = (room, some MoveError.notYourTurn)) ∧
    (room.gameState = GameState.playing → uid = t →
      (m.row < 0 ∨ m.row > 2 ∨ m.col < 0 ∨ m.col > 2) →
      handleTicTacToeMove room uid m = (room, some MoveError.outOfBounds)) ∧
    (room.gameState = GameState.playing → uid = t →
      ¬(m.row < 0 ∨ m.row > 2 ∨ m.col < 0 ∨ m.col > 2) →
      cellAt room.gameData.board m.row.toNat m.col.toNat ≠ "" →
      handleTicTacToeMove room uid m = (room, some MoveError.cellOccupied)) ∧
    (∀ e : MoveError, (handleTicTacToeMove room uid m).2 = some e →
      (handleTicTacToeMove room uid m).1 = room) := by
  refine ⟨?_, ?_, ?_, ?_, ?_⟩
  · intro h
    unfold handleTicTacToeMove
    rw [if_pos h]
  · intro hs hne
    have hneq : room.gameData.currentTurn ≠ some uid := by
      rw [hturn]
      intro hc
      exact hne (Option.some.inj hc).symm
    unfold handleTicTacToeMove
    rw [if_neg (not_not_intro hs), if_pos hneq]
  · intro hs he hbounds
    have hteq : room.gameData.currentTurn = some uid := by rw [hturn, he]
    unfold handleTicTacToeMove
    rw [if_neg (not_not_intro hs), if_neg (not_not_intro hteq), if_pos hbounds]
  · intro hs he hbounds hcell
    have hteq : room.gameData.currentTurn = some uid := by rw [hturn, he]
    unfold handleTicTacToeMove
    rw [if_neg (not_not_intro hs), if_neg (not_not_intro hteq), if_neg hbounds,
      if_pos hcell]
  · intro e he
    unfold handleTicTacToeMove at he ⊢
    split_ifs at he ⊢ <;> try rfl
    cases hfi : jsFindIndex? (fun p => p.user == uid) (activeOf room) with
    | none => simp only [hfi]
    | some i =>
      simp only [hfi] at he
      cases hW : checkTicTacToeWinner (setCell room.gameData.board m.row.toNat
          m.col.toNat (if i = 0 then "X" else "O")) with
      | some w =>
        simp only [hW] at he
        exact Option.noConfusion he
      | none =>
        simp only [hW] at he
        split_ifs at he

/-- Witness for C6, the specification's scenario: cell (0,0) is occupied
and player 2 attempts it; the move is rejected as cell-occupied and the
room is unchanged. -/
theorem C6_rejection_order_witness :
    handleTicTacToeMove exRoomTTTOccupied 2 ⟨0, 0⟩ =
      (exRoomTTTOccupied, some MoveError.cellOccupied) := by
  have h := C6_rejection_order_and_no_mutation exRoomTTTOccupied 2 ⟨0, 0⟩ 2 rfl
  exact h.2.2.2.1 rfl rfl (by decide) (by decide)

/-- C10: restart-game puts the room back to waiting with a fresh
`gameData` (empty 3x3 board, no turn, no winner, round 0, no questions,
no answers) and resets every player's ready flag and score while leaving
membership and spectator flags unchanged. -/
theorem C10_restart_resets_state_and_scores (room : Room) :
    (restartGame room).gameState = GameState.waiting ∧
    (restartGame room).gameData =
      { board := [["", "", ""], ["", "", ""], ["", "", ""]]
        currentTurn := none
        winner := none
        currentQuestion := 0
        questions := []
        answers := []
        questionSentAt := none } ∧
    (restartGame room).players.map (fun p => p.user) =
      room.players.map (fun p => p.user) ∧
    (restartGame room).players.map (fun p => p.isSpectator) =
      room.players.map (fun p => p.isSpectator) ∧
    (restartGame room).players.all (fun p => !p.isReady && p.score == 0) = true := by
  refine ⟨rfl, rfl, ?_, ?_, ?_⟩
  · simp [restartGame]
  · simp [restartGame]
  · simp [restartGame]

/-! ### Quiz scoring: how one processed round changes each score -/

theorem map_set_eq_of_eq (l : List α) (i : Nat) (x : α) (f : α → β)
    (h : ∀ hi : i < l.length, f x = f (l.get ⟨i, hi⟩)) :
    (l.set i x).map f = l.map f := by
  induction l generalizing i with
  | nil => rfl
  | cons y ys ih =>
    cases i with
    | zero => simp [h (Nat.succ_pos _)]
    | succ j => simp [ih j (fun hj => h (Nat.succ_lt_succ hj))]

theorem applyAnswer_none (correct : Nat) (ps : List Player) (a : Answer)
    (hfi : jsFindIndex? (fun p => p.user == a.player) ps = none) :
    applyAnswer correct ps a = ps := by
  unfold applyAnswer
  rw [hfi]

theorem applyAnswer_some (correct : Nat) (ps : List Player) (a : Answer) (i : Nat)
    (hfi : jsFindIndex? (fun p => p.user == a.player) ps = some i) :
    applyAnswer correct ps a =
      (if (a.answer == correct) = true then ps.set i (scoredPlayer ps i a) else ps) := by
  unfold applyAnswer
  rw [hfi]
  rfl

theorem users_applyAnswer (correct : Nat) (ps : List Player) (a : Answer) :
    (applyAnswer correct ps a).map (fun p => p.user) = ps.map (fun p => p.user) := by
  cases hfi : jsFindIndex? (fun p => p.user == a.player) ps with
  | none => rw [applyAnswer_none correct ps a hfi]
  | some i =>
    rw [applyAnswer_some correct ps a i hfi]
    by_cases hca : (a.answer == correct) = true
    · rw [if_pos hca]
      obtain ⟨hlt, hp⟩ := jsFindIndex?_some _ _ _ hfi
      refine map_set_eq_of_eq _ _ _ _ (fun hi => ?_)
      show (ps.getD i default).user = (ps.get ⟨i, hi⟩).user
      rw [List.getD_eq_getElem _ _ hi]
      rfl
    · rw [if_neg hca]

theorem find?_isSome_of_users_eq (l₁ l₂ : List Player) (uid : PlayerId)
    (h : l₂.map (fun p => p.user) = l₁.map (fun p => p.user))
    (hmem : (l₁.find? (fun p => p.user == uid)).isSome) :
    (l₂.find? (fun p => p.user == uid)).isSome := by
  obtain ⟨x, hx⟩ := Option.isSome_iff_exists.mp hmem
  have hx2 := List.find?_some hx
  have hxm : x ∈ l₁ := List.mem_of_find?_eq_some hx
  have hxu : x.user ∈ l₂.map (fun p => p.user) := by
    rw [h]
    exact List.mem_map_of_mem _ hxm
  obtain ⟨y, hym, hyu⟩ := List.mem_map.mp hxu
  rw [List.find?_isSome]
  refine ⟨y, hym, ?_⟩
  show (y.user == uid) = true
  rw [hyu]
  exact hx2

theorem scoreOf_applyAnswer (correct : Nat) (ps : List Player) (a : Answer)
    (uid : PlayerId)
    (hmem : (ps.find? (fun p => p.user == uid)).isSome) :
    scoreOf (applyAnswer correct ps a) uid =
      scoreOf ps uid + (if a.player == uid then answerContribution correct a else 0) := by
  cases hfi : jsFindIndex? (fun p => p.user == a.player) ps with
  | none =>
    rw [applyAnswer_none correct ps a hfi]
    have hne : (a.player == uid) = false := by
      by_contra hcontra
      obtain ⟨x, hx⟩ := Option.isSome_iff_exists.mp hmem
      have hx2 := List.find?_some hx
      have hxm : x ∈ ps := List.mem_of_find?_eq_some hx
      have hpeq : a.player = uid := by
        have hT := Bool.not_eq_false (a.player == uid) |>.mp hcontra
        exact beq_iff_eq.mp hT
      have hxp : (x.user == a.player) = true := by
        rw [hpeq]
        exact hx2
      have hS := jsFindIndex?_isSome_of_mem (fun p => p.user == a.player) ps x hxm hxp
      rw [hfi] at hS
      exact Bool.false_ne_true hS
    simp [hne]
  | some i =>
    rw [applyAnswer_some correct ps a i hfi]
    obtain ⟨hlt, hp⟩ := jsFindIndex?_some _ _ _ hfi
    by_cases hca : (a.answer == correct) = true
    · rw [if_pos hca]
      by_cases hpu : (a.player == uid) = true
      · have hpeq : a.player = uid := beq_iff_eq.mp hpu
        rw [hpeq] at hfi
        have hfind := find?_eq_some_getD (fun p => p.user == uid) ps i default hfi
        have hpget := List.find?_some hfind
        have hxtrue : ((scoredPlayer ps i a).user == uid) = true := hpget
        have hsetfind := find?_set_jsFindIndex? (fun p => p.user == uid) ps i
          (scoredPlayer ps i a) hfi hxtrue
        simp only [scoreOf, hsetfind, hfind]
        rw [if_pos hpu]
        show (scoredPlayer ps i a).score = (ps.getD i default).score + answerContribution correct a
        unfold scoredPlayer answerContribution
        rw [if_pos hca]
      · have hgeq : (ps.get ⟨i, hlt⟩).user = a.player := beq_iff_eq.mp hp
        have hxu : ∀ hi : i < ps.length, ((ps.get ⟨i, hi⟩).user == uid) = false := by
          intro hi
          have hsame : ps.get ⟨i, hi⟩ = ps.get ⟨i, hlt⟩ := rfl
          rw [hsame, hgeq]
          exact Bool.not_eq_true (a.player == uid) |>.mp hpu
        have hxfalse : ((scoredPlayer ps i a).user == uid) = false := by
          show ((ps.getD i default).user == uid) = false
          rw [List.getD_eq_getElem _ _ hlt]
          exact hxu hlt
        have hpres := find?_set_preserved (fun p => p.user == uid) ps i
          (scoredPlayer ps i a) hxfalse hxu
        simp only [scoreOf, hpres]
        rw [if_neg hpu]
        omega
    · rw [if_neg hca]
      have hcontrib : (if a.player == uid then answerContribution correct a else 0) = 0 := by
        unfold answerContribution
        rw [if_neg hca]
        simp
      rw [hcontrib]
      omega

theorem scoreOf_foldl_applyAnswer (correct : Nat) (answers : List Answer)
    (ps : List Player) (uid : PlayerId)
    (hmem : (ps.find? (fun p => p.user == uid)).isSome) :
    scoreOf (answers.foldl (applyAnswer correct) ps) uid =
      scoreOf ps uid +
        ((answers.filter (fun a => a.player == uid)).map
          (answerContribution correct)).sum := by
  induction answers generalizing ps with
  | nil => simp
  | cons a rest ih =>
    rw [List.foldl_cons]
    have hmem2 : ((applyAnswer correct ps a).find? (fun p => p.user == uid)).isSome :=
      find?_isSome_of_users_eq ps _ uid (users_applyAnswer correct ps a) hmem
    rw [ih _ hmem2, scoreOf_applyAnswer correct ps a uid hmem]
    by_cases hpu : (a.player == uid) = true
    · simp only [List.filter_cons, hpu, if_pos, List.map_cons, List.sum_cons]
      omega
    · simp only [List.filter_cons, hpu, Bool.false_eq_true, if_false,
        Bool.not_eq_true _ |>.mp hpu, cond_false]
      omega

/-- C2: in a processed quiz round each present player's cumulative score
grows by exactly the contribution of their recorded answer for that round:
10 when the chosen option equals the correct index, plus 5 more exactly
when the server-recorded elapsed time is at most 5 seconds (inclusive),
so a fast correct answer earns 15; a wrong option, and no answer at all,
contribute 0. -/
theorem C2_quiz_round_scoring (room : Room) (qIdx : Nat) (uid : PlayerId)
    (hmem : (room.players.find? (fun p => p.user == uid)).isSome)
    (hone : ((room.gameData.answers.filter (fun a => a.questionIndex == qIdx)).filter
        (fun a => a.player == uid)).length ≤ 1) :
    scoreOf (processQuizQuestion room qIdx).players uid =
      scoreOf room.players uid +
        (match (room.gameData.answers.filter (fun a => a.questionIndex == qIdx)).find?
            (fun a => a.player == uid) with
         | some a => answerContribution
             (room.gameData.questions.getD qIdx default).correctAnswer a
         | none => 0) := by
  have hfold := scoreOf_foldl_applyAnswer
    (room.gameData.questions.getD qIdx default).correctAnswer
    (room.gameData.answers.filter (fun a => a.questionIndex == qIdx))
    room.players uid hmem
  show scoreOf ((room.gameData.answers.filter (fun a => a.questionIndex == qIdx)).foldl
      (applyAnswer (room.gameData.questions.getD qIdx default).correctAnswer)
      room.players) uid = _
  rw [hfold, find?_eq_head?_filter]
  cases hfl : (room.gameData.answers.filter (fun a => a.questionIndex == qIdx)).filter
      (fun a => a.player == uid) with
  | nil => simp
  | cons a rest =>
    rw [hfl] at hone
    cases rest with
    | nil => simp
    | cons b bs => simp at hone

/-- Witness for C2 in a fully answered round: player 1 chose the correct
option within the 5-second threshold and gains 15; player 2 chose a wrong
option and gains 0. -/
theorem C2_quiz_round_scoring_witness :
    scoreOf (processQuizQuestion exRoomQuizScored 0).players 1 =
      scoreOf exRoomQuizScored.players 1 + 15 ∧
    scoreOf (processQuizQuestion exRoomQuizScored 0).players 2 =
      scoreOf exRoomQuizScored.players 2 + 0 := by
  have h1 := C2_quiz_round_scoring exRoomQuizScored 0 1 (by decide) (by decide)
  have h2 := C2_quiz_round_scoring exRoomQuizScored 0 2 (by decide) (by decide)
  exact ⟨h1, h2⟩

/-! ### Countdown arming: the toggle-ready and join paths -/

theorem toggleReady_none (room : Room) (uid : PlayerId)
    (hfi : jsFindIndex? (fun p => p.user == uid) room.players = none) :
    toggleReady room uid = (room, false, false) := by
  unfold toggleReady
  rw [hfi]

theorem toggleReady_some (room : Room) (uid : PlayerId) (i : Nat)
    (hfi : jsFindIndex? (fun p => p.user == uid) room.players = some i) :
    toggleReady room uid =
      (if 0 < (activeOf (toggledRoom room i)).length ∧
          (activeOf (toggledRoom room i)).all (fun q => q.isReady) then
        (toggledRoom room i, true, false)
      else (toggledRoom room i, false, true)) := by
  unfold toggleReady toggledRoom
  rw [hfi]

/-- C3 counterexample: a ready-toggle in a waiting room with a single
active player arms the countdown, and the join path arms it for two
players none of whom is ready - both while the claimed all-ready-and-two-
players condition is false. -/
theorem C3_counterexample_arming_without_condition :
    (toggleReady exRoomSolo 1).2.1 = true ∧
    (activeOf (toggleReady exRoomSolo 1).1).length = 1 ∧
    checkAndStartCountdown exRoomUnreadyPair = true ∧
    exRoomUnreadyPair.players.all (fun p => p.isReady) = false := by
  decide

/-- C3 (amended): the arming conditions the code implements.  The
join-path `checkAndStartCountdown` arms exactly when the room is waiting
with at least 2 active players - the ready flags are not consulted.  The
ready-toggle path arms exactly when, after the flip, at least one active
player exists and every active player is ready - the 2-player minimum and
the game state are not consulted. -/
theorem C3_amended_arming_conditions (room : Room) (uid : PlayerId) :
    (checkAndStartCountdown room = true ↔
      room.gameState = GameState.waiting ∧ 2 ≤ (activeOf room).length) ∧
    ((toggleReady room uid).2.1 = true ↔
      (jsFindIndex? (fun p => p.user == uid) room.players).isSome ∧
      0 < (activeOf (toggleReady room uid).1).length ∧
      (activeOf (toggleReady room uid).1).all (fun q => q.isReady) = true) := by
  constructor
  · unfold checkAndStartCountdown
    by_cases h : room.gameState ≠ GameState.waiting
    · rw [if_pos h]
      constructor
      · intro hc
        exact absurd hc Bool.false_ne_true
      · intro hc
        exact absurd hc.1 h
    · rw [if_neg h]
      have hw := not_not.mp h
      simp [decide_eq_true_iff, hw]
  · cases hfi : jsFindIndex? (fun p => p.user == uid) room.players with
    | none =>
      rw [toggleReady_none room uid hfi]
      simp
    | some i =>
      rw [toggleReady_some room uid i hfi]
      by_cases hc : 0 < (activeOf (toggledRoom room i)).length ∧
          (activeOf (toggledRoom room i)).all (fun q => q.isReady)
      · rw [if_pos hc]
        simp only [Option.isSome_some, true_and]
        exact ⟨fun _ => hc, fun _ => trivial⟩
      · rw [if_neg hc]
        simp only [Option.isSome_some, true_and]
        constructor
        · intro h2
          exact absurd h2 Bool.false_ne_true
        · intro h2
          exact absurd h2 hc

/-- C4 (code bug): with the countdown armed (timer 0 registered for the
room) and both players ready, player 1 toggling unready makes the emitted
countdown-cancelled notice true, yet the timer registry still holds the
armed countdown timer - the not-all-ready branch never calls
clearRoomTimers, so the interval later fires and starts the game. -/
theorem C4_cancel_notice_without_timer_cancellation :
    (toggleReadyWithTimers exRoomBothReady [0] 1 7).2.2 = true ∧
    (toggleReadyWithTimers exRoomBothReady [0] 1 7).1.2 = [0] ∧
    (activeOf (toggleReadyWithTimers exRoomBothReady [0] 1 7).1.1).all
      (fun q => q.isReady) = false := by
  decide

/-! ### Quiz submission: duplicates, stale rounds and round monotonicity -/

theorem answers_processQuizQuestion (room : Room) (q : Nat) :
    (processQuizQuestion room q).gameData.answers = room.gameData.answers := rfl

theorem currentQuestion_processQuizQuestion (room : Room) (q : Nat) :
    (processQuizQuestion room q).gameData.currentQuestion =
      room.gameData.currentQuestion + 1 := rfl

theorem handleQuizMove_eq (room : Room) (uid : PlayerId) (m : QuizMove) (now : Nat) :
    handleQuizMove room uid m now =
      if (room.gameData.answers.find? (fun a => a.player == uid &&
          a.questionIndex == m.questionIndex)).isSome then room
      else if (((room.gameData.answers ++ [recordedAnswer room uid m now]).filter
          (fun a => a.questionIndex == m.questionIndex)).length ==
            (activeOf room).length) = true then
        processQuizQuestion
          { room with gameData := { room.gameData with
              answers := room.gameData.answers ++ [recordedAnswer room uid m now] } }
          m.questionIndex
      else
        { room with gameData := { room.gameData with
            answers := room.gameData.answers ++ [recordedAnswer room uid m now] } } := rfl

theorem answerKeysNodup_push (answers : List Answer) (a : Answer)
    (h : answerKeysNodup answers)
    (hfresh : answers.find? (fun b => b.player == a.player &&
      b.questionIndex == a.questionIndex) = none) :
    answerKeysNodup (answers ++ [a]) := by
  unfold answerKeysNodup at h ⊢
  rw [List.map_append, List.nodup_append]
  refine ⟨h, List.nodup_singleton _, ?_⟩
  intro k hk1 hk2
  simp only [List.map_cons, List.map_nil, List.mem_singleton] at hk2
  subst hk2
  obtain ⟨b, hbm, hbk⟩ := List.mem_map.mp hk1
  have hfalse := List.find?_eq_none.mp hfresh b hbm
  apply hfalse
  have h1 : b.player = a.player := congrArg Prod.fst hbk
  have h2 : b.questionIndex = a.questionIndex := congrArg Prod.snd hbk
  simp [h1, h2]

/-- C7 counterexample: the explicit restart is an operation after which
the current round index has decreased (from 1 back to 0). -/
theorem C7_counterexample_restart_decreases_round :
    (restartGame exRoomQuizRound1).gameData.currentQuestion <
      exRoomQuizRound1.gameData.currentQuestion := by
  decide

/-- C7 (amended): at most one Answer per (player, round) pair is preserved
by every quiz submission - a duplicate (player, round) submission is
silently ignored, with no error and the room unchanged - and the round
index never decreases across the in-game quiz operations (submission and
round processing); the explicit restart re-initialises `gameData`,
resetting the round index to 0 and clearing the answer list. -/
theorem C7_amended_unique_answers_round_monotone :
    (∀ room uid m now, answerKeysNodup room.gameData.answers →
      answerKeysNodup (gameMoveQuiz room uid m now).gameData.answers) ∧
    (∀ room uid m now,
      (room.gameData.answers.find? (fun a => a.player == uid &&
        a.questionIndex == m.questionIndex)).isSome →
      gameMoveQuiz room uid m now = room) ∧
    (∀ room uid m now, room.gameData.currentQuestion ≤
      (gameMoveQuiz room uid m now).gameData.currentQuestion) ∧
    (∀ room q, room.gameData.currentQuestion ≤
      (processQuizQuestion room q).gameData.currentQuestion) ∧
    (∀ room, (restartGame room).gameData.currentQuestion = 0 ∧
      answerKeysNodup (restartGame room).gameData.answers) := by
  refine ⟨?_, ?_, ?_, ?_, ?_⟩
  · intro room uid m now h
    unfold gameMoveQuiz
    split_ifs with hgs
    · exact h
    · rw [handleQuizMove_eq]
      split_ifs with hdup hall
      · exact h
      · rw [answers_processQuizQuestion]
        exact answerKeysNodup_push _ _ h (Option.not_isSome_iff_eq_none.mp hdup)
      · exact answerKeysNodup_push _ _ h (Option.not_isSome_iff_eq_none.mp hdup)
  · intro room uid m now hdup
    unfold gameMoveQuiz
    split_ifs with hgs
    · rfl
    · rw [handleQuizMove_eq, if_pos hdup]
  · intro room uid m now
    unfold gameMoveQuiz
    split_ifs with hgs
    · exact Nat.le_refl _
    · rw [handleQuizMove_eq]
      split_ifs with hdup hall
      · exact Nat.le_refl _
      · rw [currentQuestion_processQuizQuestion]
        exact Nat.le_succ _
      · exact Nat.le_refl _
  · intro room q
    rw [currentQuestion_processQuizQuestion]
    exact Nat.le_succ _
  · intro room
    exact ⟨rfl, List.nodup_nil⟩

theorem gameMoveQuiz_fresh_append (room : Room) (uid : PlayerId)
    (m : QuizMove) (now : Nat)
    (hgs : room.gameState = GameState.playing)
    (hfresh : (room.gameData.answers.find? (fun a => a.player == uid &&
      a.questionIndex == m.questionIndex)) = none) :
    (gameMoveQuiz room uid m now).gameData.answers =
      room.gameData.answers ++ [recordedAnswer room uid m now] := by
  unfold gameMoveQuiz
  rw [if_neg (not_not_intro hgs), handleQuizMove_eq,
    if_neg (by rw [hfresh]; exact Bool.false_ne_true)]
  split_ifs with hall
  · rw [answers_processQuizQuestion]
  · rfl

/-- C8 counterexample: in a playing quiz room whose current round is 1, a
submission for round 0 by a player who has not answered round 0 is not
rejected - it is recorded into the answer list. -/
theorem C8_counterexample_stale_round_recorded :
    exRoomQuizRound1.gameData.currentQuestion = 1 ∧
    exRoomQuizRound1.gameData.answers = [] ∧
    ((gameMoveQuiz exRoomQuizRound1 1 ⟨0, 0, 0⟩ 203000).gameData.answers.map
      (fun a => a.questionIndex)) = [0] := by
  decide

/-- C8 (amended): a quiz submission is accepted exactly when the room's
`gameState` is playing and the (player, round index) pair has no recorded
Answer; the submitted round index is never compared with the room's
current round, so stale-round submissions are recorded like current ones.
Outside those conditions the room is unchanged. -/
theorem C8_acceptance_ignores_round_index (room : Room) (uid : PlayerId)
    (m : QuizMove) (now : Nat) :
    (room.gameState ≠ GameState.playing → gameMoveQuiz room uid m now = room) ∧
    ((room.gameData.answers.find? (fun a => a.player == uid &&
        a.questionIndex == m.questionIndex)).isSome →
      gameMoveQuiz room uid m now = room) ∧
    (room.gameState = GameState.playing →
      (room.gameData.answers.find? (fun a => a.player == uid &&
        a.questionIndex == m.questionIndex)) = none →
      (gameMoveQuiz room uid m now).gameData.answers =
        room.gameData.answers ++ [recordedAnswer room uid m now]) := by
  refine ⟨?_, ?_, ?_⟩
  · intro hgs
    unfold gameMoveQuiz
    rw [if_pos hgs]
  · intro hdup
    unfold gameMoveQuiz
    split_ifs with hgs
    · rfl
    · rw [handleQuizMove_eq, if_pos hdup]
  · intro hgs hfresh
    exact gameMoveQuiz_fresh_append room uid m now hgs hfresh

/-- C9: the elapsed time stored with a quiz answer is computed on the
server from the question-issue timestamp and the receipt time; the
client-declared timing field is never read, so two submissions differing
only in it produce identical room states, and the recorded elapsed time
is the server-side gap in whole seconds. -/
theorem C9_server_side_elapsed_time (room : Room) (uid : PlayerId)
    (q sel t₁ t₂ now : Nat) :
    gameMoveQuiz room uid ⟨q, sel, t₁⟩ now = gameMoveQuiz room uid ⟨q, sel, t₂⟩ now ∧
    (∀ sentAt : Nat, room.gameState = GameState.playing →
      room.gameData.questionSentAt = some sentAt →
      (room.gameData.answers.find? (fun a => a.player == uid &&
        a.questionIndex == q)) = none →
      ((gameMoveQuiz room uid ⟨q, sel, t₁⟩ now).gameData.answers.getLast?).map
        (fun a => a.timeAnswered) = some ((now - sentAt) / 1000)) := by
  constructor
  · rfl
  · intro sentAt hgs hsent hfresh
    have hrec := gameMoveQuiz_fresh_append room uid ⟨q, sel, t₁⟩ now hgs hfresh
    rw [hrec, List.getLast?_concat]
    show some (recordedAnswer room uid ⟨q, sel, t₁⟩ now).timeAnswered = _
    unfold recordedAnswer
    rw [hsent]

end MultiGame
